import Mathlib

/-
Formal model of `src/index.ts` (playwright image crawler).

The embedding covers the parts of the program with nontrivial logic:

* `loadLoop`            — the while-loop of `PageHandler.loadAllImages`
                          (src/index.ts:111-142): scroll, look for the
                          "load more" button, click, measure
                          `document.body.scrollHeight`, and keep a stall
                          counter `attempts` bounded by
                          `CONFIG.maxLoadAttempts = 10`.  The scroll step
                          (lines 116-117) runs before the `try` of line 119,
                          so a fault there is uncaught and exits the loop
                          (`errored`), while faults inside the `try` are
                          caught and counted.
* `convergenceUpdate` / `convergenceRun`
                        — the spec's ConvergenceDetector, written from the
                          spec's own words, used to compare the code loop
                          against the specified detector.
* `capturedRequests` / `jsSetDedup` / `capturedSnapshot`
                        — the "response" listener (src/index.ts:62-69) and
                          the `[...new Set(xs)]` deduplication performed when
                          the captured URLs are written out (src/index.ts:146).
* `writeCheckpoint` / `readCheckpoint`
                        — `fs.writeFileSync` / `fs.readFileSync` on
                          `output/captured_urls_<term>.json`
                          (src/index.ts:144-147 and 170-176); the file system
                          is an association list from path to the stored URL
                          array (JSON serialisation of an array of strings is
                          an inverse pair, so contents are kept at that level).
* `downloadImage` / `downloadTermTrace` / `downloadAllTrace`
                        — `ImageDownloader` (src/index.ts:151-194).  The
                          network/disk environment of one attempt is a
                          `FetchEnv` (response status code, optional stream
                          write fault); the loop is modelled as the trace of
                          observable events it produces (attempt, success
                          log, failure log, inter-download delay).
* `NetEnv` / `downloadAttempt` / `downloadTermTraceFull` / `downloadAllTraceFull`
                        — the same loops over the full attempt environment,
                          which also carries an optional transport-level
                          request fault.  The `https.get` request
                          (src/index.ts:154) has no `error` listener, so a
                          transport fault never settles the promise and its
                          unhandled `error` event aborts the run: the full
                          traces stop at such an attempt and raise a crash
                          flag.
-/

/- `CONFIG.maxLoadAttempts` (src/index.ts:25). -/
def maxLoadAttempts : Nat := 10

/- The fixed inter-download pause, `setTimeout(resolve, 1000)` (src/index.ts:187). -/
def interDownloadDelayMs : Nat := 1000

/- What one iteration of the while-loop in `PageHandler.loadAllImages`
   observes (src/index.ts:115-142).  The iteration body splits in two: the
   scroll `page.evaluate` and the settle wait (lines 116-117) run BEFORE the
   `try` that begins at line 119, so a fault thrown there is not caught
   (`scrollFault`); inside the `try`, the load-more button can be absent
   (`loadMoreButton` is null, line 121), the iteration can measure a feed
   height (line 129), or the block can throw and be caught (`fault`,
   lines 139-141). -/
inductive CycleObs where
  | noButton : CycleObs
  | height : Nat → CycleObs
  | fault : CycleObs
  | scrollFault : CycleObs
deriving DecidableEq

/- How the load loop exited: the while-condition `attempts < maxLoadAttempts`
   failed (stall bound reached), the button was absent (`break`, line 123),
   an uncaught fault from the un-guarded scroll step (line 116) propagated
   out of the loop — aborting the query —, or the supplied list of
   observations ran out while the loop would have kept going. -/
inductive LoopExit where
  | stalled : LoopExit
  | noMore : LoopExit
  | errored : LoopExit
  | exhausted : LoopExit
deriving DecidableEq

/- The while-loop of `PageHandler.loadAllImages` (src/index.ts:115-142),
   shallowly embedded over the stream of per-iteration observations.
   State: `prev` is `previousHeight`, `a` is `attempts`.  Each iteration:
   exit if `max ≤ attempts` (the while condition); a fault thrown by the
   scroll step (line 116, before the `try`) propagates — the loop exits
   `errored` and the counter is untouched; on `noButton` break; on a
   measured height equal to `previousHeight` increment `attempts`, otherwise
   reset `attempts` to 0 and record the new height (lines 130-136); an error
   thrown inside the `try` is caught and increments `attempts`
   (lines 139-141).  Returns (exit reason, final previousHeight, final
   attempts, observations not consumed). -/
def loadLoop (max : Nat) : Nat → Nat → List CycleObs → LoopExit × Nat × Nat × List CycleObs
  | prev, a, [] => if max ≤ a then (.stalled, prev, a, []) else (.exhausted, prev, a, [])
  | prev, a, o :: rest =>
    if max ≤ a then (.stalled, prev, a, o :: rest)
    else
      match o with
      | .noButton => (.noMore, prev, a, rest)
      | .height h => if h = prev then loadLoop max prev (a + 1) rest else loadLoop max h 0 rest
      | .fault => loadLoop max prev (a + 1) rest
      | .scrollFault => (.errored, prev, a, rest)

/- Decision type of the spec's ConvergenceDetector. -/
inductive Decision where
  | CONTINUE : Decision
  | STOP : Decision
deriving DecidableEq

/- Modelled from the spec: `ConvergenceDetector.update` (spec section 4.2):
   "If equal: increment `stallCount`; if `stallCount >= maxStallCount`,
   return STOP; else return CONTINUE.  If different (feed grew): reset
   `stallCount = 0`, update `previousContentHeight = currentHeight`,
   return CONTINUE."  Used only to compare the code's loop against the
   specified detector. -/
def convergenceUpdate (maxStall prevH stall h : Nat) : (Nat × Nat) × Decision :=
  if h = prevH then
    ((prevH, stall + 1), if maxStall ≤ stall + 1 then .STOP else .CONTINUE)
  else
    ((h, 0), .CONTINUE)

/- Modelled from the spec: feeding a sequence of height measurements to the
   ConvergenceDetector until it returns STOP.  Returns (stopped by STOP?,
   final previousContentHeight, final stallCount, unconsumed measurements). -/
def convergenceRun (maxStall : Nat) : Nat → Nat → List Nat → Bool × Nat × Nat × List Nat
  | prevH, stall, [] => (false, prevH, stall, [])
  | prevH, stall, h :: hs =>
    let r := convergenceUpdate maxStall prevH stall h
    if r.2 = Decision.STOP then (true, r.1.1, r.1.2, hs)
    else convergenceRun maxStall r.1.1 r.1.2 hs

/- The "response" listener (src/index.ts:62-69): every response URL starting
   with the configured gallery endpoint is pushed onto `networkRequests`.
   JavaScript `String.prototype.startsWith` is a character-wise test,
   modelled on the character lists. -/
def capturedRequests (pre : String) (events : List String) : List String :=
  events.filter (fun u => pre.data.isPrefixOf u.data)

/- Model of `[...new Set(xs)]` (src/index.ts:146): a JS Set iterates in
   insertion order and ignores duplicate insertions, so the spread keeps the
   first occurrence of each element, in order. -/
def jsSetDedup : List String → List String
  | [] => []
  | u :: us => u :: jsSetDedup (us.filter (fun v => v ≠ u))
termination_by l => l.length
decreasing_by
  simp only [List.length_cons]
  exact Nat.lt_succ_of_le (List.length_filter_le _ _)

/- The URL array written out at the end of `loadAllImages`
   (src/index.ts:144-147): captured requests, deduplicated. -/
def capturedSnapshot (pre : String) (events : List String) : List String :=
  jsSetDedup (capturedRequests pre events)

/- The file system, at the granularity the program uses it: a path keyed
   association list whose values are the stored URL arrays (JSON encoding of
   a string array round-trips, so contents are modelled at the array level).
   A write prepends and a read takes the most recent record for the path,
   which models `fs.writeFileSync` overwriting the file at that path. -/
abbrev FileSys := List (String × List String)

def writeFileRecord (fsys : FileSys) (p : String) (v : List String) : FileSys :=
  (p, v) :: fsys

def readFileRecord : FileSys → String → Option (List String)
  | [], _ => none
  | (q, v) :: rest, p => if q = p then some v else readFileRecord rest p

/- The checkpoint path `output/captured_urls_${term}.json`
   (src/index.ts:145 and 170). -/
def checkpointPath (term : String) : String :=
  "output/captured_urls_" ++ term ++ ".json"

/- `fs.writeFileSync` of the captured URLs for a term (src/index.ts:144-147). -/
def writeCheckpoint (fsys : FileSys) (term : String) (urls : List String) : FileSys :=
  writeFileRecord fsys (checkpointPath term) urls

/- `fs.existsSync` + `fs.readFileSync` + `JSON.parse` for a term's checkpoint
   (src/index.ts:170-176): `none` when no checkpoint file exists. -/
def readCheckpoint (fsys : FileSys) (term : String) : Option (List String) :=
  readFileRecord fsys (checkpointPath term)

/- The environment of a download attempt whose request DELIVERED a response:
   the HTTP status code and an optional write-stream fault while piping to
   disk.  On such attempts the promise settles.  A request-level transport
   fault (the `https.get` request at src/index.ts:154 has no `error`
   listener) never settles the promise at all; that path is modelled
   separately by `NetEnv` / `downloadAttempt` below. -/
structure FetchEnv where
  statusCode : Nat
  writeError : Option String
deriving DecidableEq

/- The settling outcome of `ImageDownloader.downloadImage`
   (src/index.ts:152-166) once a response arrived: a 200 response is piped to
   disk (the promise rejects with the stream error if the write faults,
   resolves on close); any other status rejects with
   `Request Failed: <status>`. -/
def downloadImage (e : FetchEnv) : Except String Unit :=
  if e.statusCode = 200 then
    match e.writeError with
    | some msg => Except.error msg
    | none => Except.ok ()
  else
    Except.error ("Request Failed: " ++ toString e.statusCode)

/- The full environment of one download attempt, including the request
   itself: an optional transport-level fault (DNS failure, connection
   refused — the `error` event of the `https.get` request), and, when the
   request goes through, the delivered status code and optional write-stream
   fault. -/
structure NetEnv where
  transportError : Option String
  statusCode : Nat
  writeError : Option String
deriving DecidableEq

/- Projection to the settling sub-environment used once a response arrived. -/
def NetEnv.settle (e : NetEnv) : FetchEnv :=
  ⟨e.statusCode, e.writeError⟩

/- What actually becomes of the promise returned by
   `ImageDownloader.downloadImage` (src/index.ts:152-166) for one attempt:
   it resolves, rejects with a reason, or — on a transport fault — never
   settles: `https.get(url, cb)` (line 154) attaches no `error` listener to
   the request, so the `error` event is unhandled and crashes the run while
   the `await` of the promise is abandoned. -/
inductive AttemptResult where
  | resolved : AttemptResult
  | rejected : String → AttemptResult
  | crashed : String → AttemptResult
deriving DecidableEq

def downloadAttempt (e : NetEnv) : AttemptResult :=
  match e.transportError with
  | some msg => AttemptResult.crashed msg
  | none =>
    match downloadImage (NetEnv.settle e) with
    | .ok _ => AttemptResult.resolved
    | .error msg => AttemptResult.rejected msg

def exceptOk : Except String Unit → Bool
  | .ok _ => true
  | .error _ => false

/- The destination file name `${term}-${i + 1}.png` for the 0-based index `i`
   (src/index.ts:181). -/
def fileNameFor (term : String) (i : Nat) : String :=
  term ++ "-" ++ toString (i + 1) ++ ".png"

/- Observable events of the download phase (src/index.ts:168-193):
   the `No URLs file found` notice (line 172), one download attempt of a URL
   to a destination file name (line 185), the `Downloaded:` success log
   (line 186), the `Failed to download <fileName>:` failure log carrying the
   rejection reason (line 189), and the inter-download pause (line 187). -/
inductive DEv where
  | noCheckpoint : String → DEv
  | attempt : String → String → DEv
  | success : String → DEv
  | failure : String → String → DEv
  | delay : Nat → DEv
deriving DecidableEq

/- The inner `for` loop of `ImageDownloader.downloadAllImages`
   (src/index.ts:180-191) for one term, as the trace of events it produces,
   on attempts whose request delivered a response (settling attempts).
   `out k` is the environment the attempt at index `k` runs against.  On
   success the code logs and then waits the fixed delay (lines 186-187,
   inside the `try`); on rejection the `catch` only logs the failure
   (line 189) — no delay.  The transport-fault path is covered by
   `downloadTermTraceFull` below. -/
def downloadTermTrace (out : Nat → FetchEnv) (term : String) : Nat → List String → List DEv
  | _, [] => []
  | i, u :: us =>
    DEv.attempt u (fileNameFor term i) ::
      ((match downloadImage (out i) with
        | .ok _ => [DEv.success (fileNameFor term i), DEv.delay interDownloadDelayMs]
        | .error msg => [DEv.failure (fileNameFor term i) msg])
        ++ downloadTermTrace out term (i + 1) us)

/- The outer loop of `ImageDownloader.downloadAllImages` (src/index.ts:169-192):
   terms without a checkpoint file produce the notice and are skipped
   (`continue`, lines 171-174); otherwise the term's checkpoint is replayed. -/
def downloadAllTrace (out : String → Nat → FetchEnv) (fsys : FileSys) : List String → List DEv
  | [] => []
  | t :: ts =>
    (match readCheckpoint fsys t with
     | none => [DEv.noCheckpoint t]
     | some urls => downloadTermTrace (out t) t 0 urls)
      ++ downloadAllTrace out fsys ts

/- The inner `for` loop of `ImageDownloader.downloadAllImages`
   (src/index.ts:180-191) over the full attempt environments, as the trace of
   events it produces together with a crash flag.  A resolving attempt logs
   success and delays; a rejecting attempt is caught and logs the failure; a
   transport fault never settles the awaited promise while the unhandled
   `error` event aborts the run — the attempt is made but nothing further of
   this term (no failure record, no later attempt) happens. -/
def downloadTermTraceFull (out : Nat → NetEnv) (term : String) :
    Nat → List String → List DEv × Bool
  | _, [] => ([], false)
  | i, u :: us =>
    match downloadAttempt (out i) with
    | .crashed _ => ([DEv.attempt u (fileNameFor term i)], true)
    | .resolved =>
      (DEv.attempt u (fileNameFor term i) :: DEv.success (fileNameFor term i)
          :: DEv.delay interDownloadDelayMs :: (downloadTermTraceFull out term (i + 1) us).1,
       (downloadTermTraceFull out term (i + 1) us).2)
    | .rejected msg =>
      (DEv.attempt u (fileNameFor term i) :: DEv.failure (fileNameFor term i) msg
          :: (downloadTermTraceFull out term (i + 1) us).1,
       (downloadTermTraceFull out term (i + 1) us).2)

/- The outer loop of `ImageDownloader.downloadAllImages` (src/index.ts:169-192)
   over the full attempt environments: a crash inside one term's replay aborts
   the whole download phase, so no later term is processed. -/
def downloadAllTraceFull (out : String → Nat → NetEnv) (fsys : FileSys) :
    List String → List DEv × Bool
  | [] => ([], false)
  | t :: ts =>
    match readCheckpoint fsys t with
    | none =>
      (DEv.noCheckpoint t :: (downloadAllTraceFull out fsys ts).1,
       (downloadAllTraceFull out fsys ts).2)
    | some urls =>
      if (downloadTermTraceFull (out t) t 0 urls).2 then
        ((downloadTermTraceFull (out t) t 0 urls).1, true)
      else
        ((downloadTermTraceFull (out t) t 0 urls).1 ++ (downloadAllTraceFull out fsys ts).1,
         (downloadAllTraceFull out fsys ts).2)

/- The (url, destination file name) pairs attempted, in order. -/
def attemptsOf : List DEv → List (String × String)
  | [] => []
  | DEv.attempt u n :: rest => (u, n) :: attemptsOf rest
  | _ :: rest => attemptsOf rest

/- The (file name, reason) pairs of the failure logs, in order. -/
def failuresOf : List DEv → List (String × String)
  | [] => []
  | DEv.failure n r :: rest => (n, r) :: failuresOf rest
  | _ :: rest => failuresOf rest

/- The file names of the successful downloads, in order. -/
def successNamesOf : List DEv → List String
  | [] => []
  | DEv.success n :: rest => n :: successNamesOf rest
  | _ :: rest => successNamesOf rest

/- The attempts the download phase plans from the checkpoints alone: every
   URL of every checkpointed term, paired with its ordinal file name.  Does
   not depend on any download outcome. -/
def plannedAttempts (fsys : FileSys) : List String → List (String × String)
  | [] => []
  | t :: ts =>
    (match readCheckpoint fsys t with
     | none => []
     | some urls => List.zipWith (fun u k => (u, fileNameFor t k)) urls (List.range urls.length))
      ++ plannedAttempts fsys ts

/- The failure logs determined by checkpoints and outcomes: one record per
   rejected attempt, carrying the destination file name and the reason. -/
def plannedFailures (out : String → Nat → FetchEnv) (fsys : FileSys) :
    List String → List (String × String)
  | [] => []
  | t :: ts =>
    (match readCheckpoint fsys t with
     | none => []
     | some urls =>
        (List.range urls.length).filterMap (fun k =>
          match downloadImage (out t k) with
          | .ok _ => none
          | .error msg => some (fileNameFor t k, msg)))
      ++ plannedFailures out fsys ts

/- Scans a trace checking that between any two consecutive attempt events a
   delay event occurs.  The flag records whether a delay has been seen since
   the last attempt (initially true: the first attempt needs none). -/
def sepAux : Bool → List DEv → Bool
  | _, [] => true
  | flag, DEv.attempt _ _ :: rest => flag && sepAux false rest
  | _, DEv.delay _ :: rest => sepAux true rest
  | flag, _ :: rest => sepAux flag rest

/- Every pair of consecutive attempts in the trace has a delay between them. -/
def attemptsSeparated (tr : List DEv) : Bool :=
  sepAux true tr

/- Whether `pat` occurs as a contiguous segment of `s` (substring test on
   character lists). -/
def hasSeg (pat : List Char) : List Char → Bool
  | [] => pat.isEmpty
  | c :: rest => pat.isPrefixOf (c :: rest) || hasSeg pat rest

/- A download environment in which every attempt succeeds. -/
def fetchOk : FetchEnv := ⟨200, none⟩

/- Outcomes for the spec's scenario: the second download (index 1) fails
   with a 404 status, all others succeed. -/
def outSecondFails : Nat → FetchEnv := fun k => if k = 1 then ⟨404, none⟩ else fetchOk

/- Outcomes in which every attempt fails with a 500 status. -/
def outAllFail : Nat → FetchEnv := fun _ => ⟨500, none⟩

/- Outcomes for every term: every attempt succeeds. -/
def outEnvOk : String → Nat → FetchEnv := fun _ _ => fetchOk

/- A full attempt environment in which the request delivers a clean 200. -/
def netOk : NetEnv := ⟨none, 200, none⟩

/- Full outcomes for every term: the first download (index 0) fails with a
   404 status, all others succeed; no transport faults. -/
def outFirstFailsN : String → Nat → NetEnv :=
  fun _ k => if k = 0 then ⟨none, 404, none⟩ else netOk

/- Full outcomes for every term: the first attempt (index 0) hits a
   transport fault — the connection is refused — all others succeed. -/
def outTransportN : String → Nat → NetEnv :=
  fun _ k => if k = 0 then ⟨some "connect ECONNREFUSED", 200, none⟩ else netOk

/- A file system holding only a checkpoint for the term "apple". -/
def fsysApple : FileSys := writeCheckpoint [] "apple" ["u"]

/- A file system holding a two-URL checkpoint for the term "x". -/
def fsysX : FileSys := writeCheckpoint [] "x" ["u1", "u2"]

/- A file system holding checkpoints for the terms "x" and "y". -/
def fsysXY : FileSys := writeCheckpoint (writeCheckpoint [] "y" ["v1"]) "x" ["u1", "u2"]

/- Event extractors distribute over trace concatenation. -/
theorem attemptsOf_append (l1 l2 : List DEv) :
    attemptsOf (l1 ++ l2) = attemptsOf l1 ++ attemptsOf l2 := by
  induction l1 with
  | nil => rfl
  | cons e r ih => cases e <;> simp [attemptsOf, ih]

theorem failuresOf_append (l1 l2 : List DEv) :
    failuresOf (l1 ++ l2) = failuresOf l1 ++ failuresOf l2 := by
  induction l1 with
  | nil => rfl
  | cons e r ih => cases e <;> simp [failuresOf, ih]

theorem successNamesOf_append (l1 l2 : List DEv) :
    successNamesOf (l1 ++ l2) = successNamesOf l1 ++ successNamesOf l2 := by
  induction l1 with
  | nil => rfl
  | cons e r ih => cases e <;> simp [successNamesOf, ih]

/- The k-th attempt of one term's download loop targets the k-th checkpoint
   URL and the ordinal file name of its position, whatever the outcomes are. -/
theorem attemptsOf_trace_get? (out : Nat → FetchEnv) (term : String) (urls : List String) :
    ∀ (i k : Nat),
      (attemptsOf (downloadTermTrace out term i urls)).get? k
        = (urls.get? k).map (fun u => (u, fileNameFor term (i + k))) := by
  induction urls with
  | nil => intro i k; simp [downloadTermTrace, attemptsOf]
  | cons u us ih =>
    intro i k
    have hcons : attemptsOf (downloadTermTrace out term i (u :: us))
        = (u, fileNameFor term i) :: attemptsOf (downloadTermTrace out term (i + 1) us) := by
      cases h : downloadImage (out i) <;>
        simp [downloadTermTrace, h, attemptsOf, attemptsOf_append]
    rw [hcons]
    cases k with
    | zero => simp
    | succ k =>
      show (attemptsOf (downloadTermTrace out term (i + 1) us)).get? k
        = (us.get? k).map (fun u => (u, fileNameFor term (i + (k + 1))))
      rw [ih (i + 1) k, Nat.add_assoc, Nat.add_comm 1 k]

/-- Claim C10: for every download task, regardless of the URL, the destination
file name is `t-i.png` for term `t` at checkpoint position `i` (1-based
ordinal) and always carries the fixed extension `.png`: the k-th attempt of a
term's loop pairs the k-th checkpoint URL with `fileNameFor term k`
(`${term}-${k+1}.png`, src/index.ts:181), a name that does not depend on the
URL at all, and `.png` is a suffix of every such name. -/
theorem filename_fixed_extension (term : String) (out : Nat → FetchEnv)
    (urls : List String) :
    (∀ k, (attemptsOf (downloadTermTrace out term 0 urls)).get? k
        = (urls.get? k).map (fun u => (u, fileNameFor term k)))
  ∧ (∀ t i, ".png".data <:+ (fileNameFor t i).data) := by
  constructor
  · intro k
    simpa using attemptsOf_trace_get? out term urls 0 k
  · intro t i
    exact ⟨(t ++ "-" ++ toString (i + 1)).data, by simp [fileNameFor]⟩

/- Once the stall bound is reached, the loop exits at the top of the next
   iteration, consuming nothing further. -/
theorem loadLoop_stop (max prev a : Nat) (l : List CycleObs) (h : max ≤ a) :
    loadLoop max prev a l = (.stalled, prev, a, l) := by
  cases l <;> simp [loadLoop, h]

/- Consecutive caught faults each bump the counter by one. -/
theorem loadLoop_fault_run (max prev : Nat) (rest : List CycleObs) :
    ∀ (n a : Nat), a + n ≤ max →
      loadLoop max prev a (List.replicate n CycleObs.fault ++ rest)
        = loadLoop max prev (a + n) rest := by
  intro n
  induction n with
  | zero => intro a _; simp
  | succ n ih =>
    intro a h
    have ha : ¬ max ≤ a := by omega
    show loadLoop max prev a (CycleObs.fault :: (List.replicate n CycleObs.fault ++ rest))
      = loadLoop max prev (a + (n + 1)) rest
    rw [loadLoop, if_neg ha]
    rw [ih (a + 1) (by omega)]
    congr 1
    omega

/-- Claim C8 counterexample: not every action-level fault raised inside one
iteration of the load loop is absorbed as a stall increment — the scroll
`page.evaluate` and settle wait (src/index.ts:116-117) run before the `try`
that begins at line 119, so an evaluation error there propagates out of the
loop and aborts the query: a first-iteration scroll fault makes the loop exit
`errored` with the stall counter still 0, in contrast with a caught in-`try`
fault, which leaves the loop running with the counter at 1. -/
theorem loadLoop_scroll_fault_counterexample :
    loadLoop maxLoadAttempts 0 0 [CycleObs.scrollFault] = (LoopExit.errored, 0, 0, [])
  ∧ loadLoop maxLoadAttempts 0 0 [CycleObs.fault] = (LoopExit.exhausted, 0, 1, []) := by
  exact ⟨by decide, by decide⟩

/-- Claim C8 amended: a fault thrown inside the `try` block of a load-loop
iteration (affordance lookup failure, click or height-evaluation error,
src/index.ts:119-138) is caught (lines 139-141) and absorbed as a single
stall-counter increment on the same bounded-retry path: while the loop is
running (`attempts < max`), a caught fault is observationally identical to a
stalled height reading, and ten consecutive caught faults exhaust the
`maxLoadAttempts = 10` bound and end the loop normally (exit `stalled`).  But
a fault thrown by the scroll step before the `try` (line 116) is NOT caught:
the loop exits `errored` with the counter untouched and the fault propagates,
aborting the query. -/
theorem loadLoop_fault_absorbed (max prev a : Nat) (rest : List CycleObs) (h : a < max) :
    loadLoop max prev a (CycleObs.fault :: rest)
      = loadLoop max prev a (CycleObs.height prev :: rest)
  ∧ loadLoop maxLoadAttempts prev 0 (List.replicate maxLoadAttempts CycleObs.fault ++ rest)
      = (LoopExit.stalled, prev, maxLoadAttempts, rest)
  ∧ loadLoop max prev a (CycleObs.scrollFault :: rest) = (LoopExit.errored, prev, a, rest) := by
  refine ⟨?_, ?_, ?_⟩
  · simp [loadLoop, Nat.not_le.mpr h]
  · rw [loadLoop_fault_run maxLoadAttempts prev rest maxLoadAttempts 0 (by simp)]
    simpa using loadLoop_stop maxLoadAttempts prev maxLoadAttempts rest (Nat.le_refl _)
  · simp [loadLoop, Nat.not_le.mpr h]

/-- Witness for C8 at a concrete state: prev = 5, attempts = 0, bound 10. -/
theorem loadLoop_fault_absorbed_witness :
    (0 : Nat) < 10
  ∧ (loadLoop 10 5 0 (CycleObs.fault :: []) = loadLoop 10 5 0 (CycleObs.height 5 :: [])
  ∧ loadLoop maxLoadAttempts 5 0 (List.replicate maxLoadAttempts CycleObs.fault ++ [])
      = (LoopExit.stalled, 5, maxLoadAttempts, [])
  ∧ loadLoop 10 5 0 (CycleObs.scrollFault :: []) = (LoopExit.errored, 5, 0, [])) :=
  ⟨by decide, loadLoop_fault_absorbed 10 5 0 [] (by decide)⟩

/-- Claim C2 counterexample: on the height sequence
`[100,150,150,150,150,150,150,150,150,150,150,200]` (ten 150-readings) with
the bound 10, the loop does NOT stop while the height is 150: the first
150-reading differs from the recorded 100 and resets the counter
(src/index.ts:133-136), so the ten 150s produce only nine stalls, and the
loop consumes the 200-reading (final recorded height 200) and is still
running when the measurements run out. -/
theorem loadLoop_scenario_counterexample :
    loadLoop maxLoadAttempts 0 0
        ([100, 150, 150, 150, 150, 150, 150, 150, 150, 150, 150, 200].map CycleObs.height)
      = (LoopExit.exhausted, 200, 0, []) := by decide

/-- Claim C2 amended: stopping at height 150 before the 200-reading requires
eleven consecutive 150-readings after the 100 (one growth reset plus ten
stalls): on `[100] ++ replicate 11 150 ++ [200]` the loop exits `stalled`
with recorded height 150 and the 200-reading still unconsumed, i.e. never
observed. -/
theorem loadLoop_scenario_amended :
    loadLoop maxLoadAttempts 0 0
        (([100] ++ List.replicate 11 150 ++ [200]).map CycleObs.height)
      = (LoopExit.stalled, 150, maxLoadAttempts, [CycleObs.height 200]) := by decide

/-- Claim C6: the checkpoint store round-trips: reading a term's checkpoint
right after writing it returns exactly the written URL sequence, and a second
write for the same term fully replaces the first (`fs.writeFileSync`
overwrites `output/captured_urls_<term>.json` wholesale,
src/index.ts:144-147); in particular writing `["A","B"]` then `["C"]` reads
back `["C"]`. -/
theorem checkpoint_roundtrip_overwrite (fsys : FileSys) (term : String)
    (urls urls1 urls2 : List String) :
    readCheckpoint (writeCheckpoint fsys term urls) term = some urls
  ∧ readCheckpoint (writeCheckpoint (writeCheckpoint fsys term urls1) term urls2) term
      = some urls2
  ∧ readCheckpoint (writeCheckpoint (writeCheckpoint fsys term ["A", "B"]) term ["C"]) term
      = some ["C"] := by
  refine ⟨?_, ?_, ?_⟩ <;>
    simp [readCheckpoint, writeCheckpoint, readFileRecord, writeFileRecord]

/- Closed form of the attempts of one term's loop: the checkpoint URLs zipped
   with their positions' ordinal file names; no dependence on outcomes. -/
theorem attemptsOf_trace (out : Nat → FetchEnv) (term : String) :
    ∀ (urls : List String) (i : Nat),
      attemptsOf (downloadTermTrace out term i urls)
        = List.zipWith (fun u k => (u, fileNameFor term k)) urls (List.range' i urls.length) := by
  intro urls
  induction urls with
  | nil => intro i; simp [downloadTermTrace, attemptsOf]
  | cons u us ih =>
    intro i
    cases h : downloadImage (out i) <;>
      simp [downloadTermTrace, h, attemptsOf, attemptsOf_append, List.range'_succ, ih]

/- Closed form of the successful file names of one term's loop: the ordinal
   names of the positions whose attempt succeeded. -/
theorem successNamesOf_trace (out : Nat → FetchEnv) (term : String) :
    ∀ (urls : List String) (i : Nat),
      successNamesOf (downloadTermTrace out term i urls)
        = ((List.range' i urls.length).filter
            (fun k => exceptOk (downloadImage (out k)))).map (fileNameFor term) := by
  intro urls
  induction urls with
  | nil => intro i; simp [downloadTermTrace, successNamesOf]
  | cons u us ih =>
    intro i
    cases h : downloadImage (out i) <;>
      simp [downloadTermTrace, h, successNamesOf, successNamesOf_append, List.range'_succ, ih,
        exceptOk]

/- Closed form of the failure logs of one term's loop: one (file name, reason)
   record per rejected position. -/
theorem failuresOf_trace (out : Nat → FetchEnv) (term : String) :
    ∀ (urls : List String) (i : Nat),
      failuresOf (downloadTermTrace out term i urls)
        = (List.range' i urls.length).filterMap (fun k =>
            match downloadImage (out k) with
            | .ok _ => none
            | .error msg => some (fileNameFor term k, msg)) := by
  intro urls
  induction urls with
  | nil => intro i; simp [downloadTermTrace, failuresOf]
  | cons u us ih =>
    intro i
    cases h : downloadImage (out i) <;>
      simp [downloadTermTrace, h, failuresOf, failuresOf_append, List.range'_succ, ih,
        List.filterMap_cons]

/-- Claim C4: the downloader derives the destination name of checkpoint
position `k` as the ordinal `k+1` (`${term}-${k+1}.png`, src/index.ts:180-181)
independent of which downloads fail: the successful file names are exactly the
ordinal names of the positions whose attempt succeeded (a failed item's slot
is skipped, not renumbered), the k-th attempt always pairs the k-th URL with
`fileNameFor term k`, and on the scenario checkpoint `["u1","u2","u3"]` for
term `"x"` with `"u2"` failing, the produced files are `x-1.png` and
`x-3.png`. -/
theorem download_ordinals_stable (term : String) (out : Nat → FetchEnv)
    (urls : List String) :
    successNamesOf (downloadTermTrace out term 0 urls)
      = ((List.range urls.length).filter
          (fun k => exceptOk (downloadImage (out k)))).map (fileNameFor term)
  ∧ (∀ k, (attemptsOf (downloadTermTrace out term 0 urls)).get? k
        = (urls.get? k).map (fun u => (u, fileNameFor term k)))
  ∧ successNamesOf (downloadTermTrace outSecondFails "x" 0 ["u1", "u2", "u3"])
      = ["x-1.png", "x-3.png"] := by
  refine ⟨?_, ?_, by decide⟩
  · rw [List.range_eq_range']
    exact successNamesOf_trace out term urls 0
  · intro k
    simpa using attemptsOf_trace_get? out term urls 0 k

/-- Claim C5 counterexample: the inter-download pause sits inside the `try`
after a successful download only (src/index.ts:184-190), so two consecutive
attempts in which the first fails have no delay between them: with both
downloads of `["u1","u2"]` failing (status 500), the trace violates the
"delay between every pair of consecutive attempts" property. -/
theorem delay_after_failure_counterexample :
    attemptsSeparated (downloadTermTrace outAllFail "x" 0 ["u1", "u2"]) = false := by
  decide

/-- Claim C5 amended: the fixed inter-download delay is performed only after a
successful attempt; a failed attempt proceeds to the next one with no delay.
Precisely: every pair of consecutive attempts of a term's loop is separated by
a delay exactly when every attempt other than possibly the last one
succeeded. -/
theorem delay_separation_iff_success (term : String) (out : Nat → FetchEnv)
    (urls : List String) :
    attemptsSeparated (downloadTermTrace out term 0 urls) = true
      ↔ ∀ k, k + 1 < urls.length → exceptOk (downloadImage (out k)) = true := by
  have main : ∀ (us : List String) (i : Nat),
      sepAux true (downloadTermTrace out term i us) = true
        ↔ ∀ k, k + 1 < us.length → exceptOk (downloadImage (out (i + k))) = true := by
    intro us
    induction us with
    | nil => intro i; simp [downloadTermTrace, sepAux]
    | cons u us ih =>
      intro i
      cases h : downloadImage (out i) with
      | ok _ =>
        have hstep : sepAux true (downloadTermTrace out term i (u :: us))
            = sepAux true (downloadTermTrace out term (i + 1) us) := by
          simp [downloadTermTrace, h, sepAux]
        rw [hstep, ih (i + 1)]
        constructor
        · intro hs k hk
          cases k with
          | zero => simp [exceptOk, h]
          | succ k =>
            have hk' : k + 1 < us.length := by simpa using hk
            have := hs k hk'
            have e : i + 1 + k = i + (k + 1) := by omega
            rwa [e] at this
        · intro hall k hk
          have hk' : k + 1 + 1 < us.length + 1 := by omega
          have := hall (k + 1) (by simpa using hk')
          have e : i + (k + 1) = i + 1 + k := by omega
          rwa [e] at this
      | error msg =>
        cases us with
        | nil =>
          constructor
          · intro _ k hk
            simp at hk
          · intro _
            simp [downloadTermTrace, h, sepAux]
        | cons u' us' =>
          have hfalse : sepAux true (downloadTermTrace out term i (u :: u' :: us')) = false := by
            simp [downloadTermTrace, h, sepAux]
          rw [hfalse]
          constructor
          · intro hcontra
            exact absurd hcontra (by simp)
          · intro hall
            have h0 := hall 0 (by simp)
            rw [Nat.add_zero] at h0
            rw [h] at h0
            simp [exceptOk] at h0
  simpa using main urls 0

/-- Claim C9: a query term with no checkpoint file makes the download phase
emit the `No URLs file found` notice and `continue` (src/index.ts:171-174):
its only trace contribution is the notice event, and the remaining terms are
processed exactly as they would be on their own. -/
theorem missing_checkpoint_skips (out : String → Nat → FetchEnv) (fsys : FileSys)
    (pre post : List String) (t : String) (hnone : readCheckpoint fsys t = none) :
    downloadAllTrace out fsys (pre ++ t :: post)
      = downloadAllTrace out fsys pre
          ++ DEv.noCheckpoint t :: downloadAllTrace out fsys post := by
  induction pre with
  | nil => simp [downloadAllTrace, hnone]
  | cons s ss ih => simp [downloadAllTrace, ih]

/-- Witness for C9: an empty-but-for-"apple" store has no checkpoint for
"carrot"; the run over ["carrot", "apple"] skips "carrot" with the notice and
still processes "apple". -/
theorem missing_checkpoint_skips_witness :
    readCheckpoint fsysApple "carrot" = none
  ∧ downloadAllTrace outEnvOk fsysApple ([] ++ "carrot" :: ["apple"])
      = downloadAllTrace outEnvOk fsysApple []
          ++ DEv.noCheckpoint "carrot" :: downloadAllTrace outEnvOk fsysApple ["apple"] :=
  ⟨by decide, missing_checkpoint_skips outEnvOk fsysApple [] ["apple"] "carrot" (by decide)⟩

/-- Claim C7 counterexample, in two parts.  (1) The failure log line is
`Failed to download ${fileName}:` with the rejection reason
(src/index.ts:189) — the URL is not part of the record: with the checkpoint
`["u1","u2"]` for term `"x"` and `"u1"` failing with status 404, the failure
record is `("x-1.png", "Request Failed: 404")`, the URL `"u1"` occurs in
neither component, and the loop still attempts both URLs.  (2) A transport
fault does escalate: the `https.get` request (src/index.ts:154) has no
`error` listener, so the promise never settles and the unhandled `error`
event aborts the run — with checkpoints for `"x"` and `"y"` and a connection
refusal on `"u1"`, the whole phase produces only the `"u1"` attempt: no
failure record for it, no attempt of `"u2"`, and `"y"` is never processed. -/
theorem failure_log_lacks_url_counterexample :
    failuresOf (downloadAllTraceFull outFirstFailsN fsysX ["x"]).1
      = [("x-1.png", "Request Failed: 404")]
  ∧ hasSeg "u1".data "x-1.png".data = false
  ∧ hasSeg "u1".data "Request Failed: 404".data = false
  ∧ attemptsOf (downloadAllTraceFull outFirstFailsN fsysX ["x"]).1
      = [("u1", "x-1.png"), ("u2", "x-2.png")]
  ∧ downloadAllTraceFull outTransportN fsysXY ["x", "y"]
      = ([DEv.attempt "u1" "x-1.png"], true) := by
  exact ⟨by decide, by decide, by decide, by decide, by decide⟩

/- Attempts and failure logs of the whole settling-only download phase, in
   closed form: the attempts are the ones planned from the checkpoints alone,
   and the failures are one (file name, reason) record per rejection. -/
theorem downloadAllTrace_attempts_failures (out : String → Nat → FetchEnv) (fsys : FileSys)
    (terms : List String) :
    attemptsOf (downloadAllTrace out fsys terms) = plannedAttempts fsys terms
  ∧ failuresOf (downloadAllTrace out fsys terms) = plannedFailures out fsys terms := by
  induction terms with
  | nil => exact ⟨rfl, rfl⟩
  | cons t ts ih =>
    refine ⟨?_, ?_⟩ <;>
      cases hc : readCheckpoint fsys t <;>
        simp [downloadAllTrace, plannedAttempts, plannedFailures, hc,
          attemptsOf_append, failuresOf_append, attemptsOf, failuresOf,
          attemptsOf_trace, failuresOf_trace, List.range_eq_range', ih.1, ih.2]

/- When no attempt hits a transport fault, a term's full trace is the
   settling trace and nothing crashes. -/
theorem downloadTermTraceFull_settle (out : Nat → NetEnv) (term : String)
    (hset : ∀ k, (out k).transportError = none) :
    ∀ (urls : List String) (i : Nat),
      downloadTermTraceFull out term i urls
        = (downloadTermTrace (fun k => NetEnv.settle (out k)) term i urls, false) := by
  intro urls
  induction urls with
  | nil => intro i; simp [downloadTermTraceFull, downloadTermTrace]
  | cons u us ih =>
    intro i
    cases h : downloadImage (NetEnv.settle (out i)) <;>
      simp [downloadTermTraceFull, downloadTermTrace, downloadAttempt, hset i, h, ih]

/- When no attempt hits a transport fault, the whole phase's full trace is
   the settling trace and nothing crashes. -/
theorem downloadAllTraceFull_settle (out : String → Nat → NetEnv) (fsys : FileSys)
    (hset : ∀ t k, (out t k).transportError = none) :
    ∀ (terms : List String),
      downloadAllTraceFull out fsys terms
        = (downloadAllTrace (fun t k => NetEnv.settle (out t k)) fsys terms, false) := by
  intro terms
  induction terms with
  | nil => simp [downloadAllTraceFull, downloadAllTrace]
  | cons t ts ih =>
    cases hc : readCheckpoint fsys t with
    | none => simp [downloadAllTraceFull, downloadAllTrace, hc, ih]
    | some urls =>
      have hterm := downloadTermTraceFull_settle (out t) t (hset t) urls 0
      simp [downloadAllTraceFull, downloadAllTrace, hc, hterm, ih]

/-- Claim C7 amended: a download attempt that rejects with a reason (non-200
status or stream write fault) is logged with the destination file name and
the reason — not the URL — and never escalates: when no attempt hits a
transport fault, the phase never crashes, the attempted (URL, file) pairs
are exactly the ones planned from the checkpoints alone (so every later URL
of the same query and every later query is still processed, whatever
rejects), and the failure logs are exactly one (file name, reason) record per
rejection.  A transport fault, by contrast, is unhandled (no `error`
listener on the `https.get` request, src/index.ts:154) and aborts the phase:
its iteration contributes only the attempt event — no failure record — and
nothing after it, in the same term or in any later term, happens. -/
theorem download_isolation_logging (out : String → Nat → NetEnv) (fsys : FileSys)
    (terms : List String) (hset : ∀ t k, (out t k).transportError = none) :
    ((downloadAllTraceFull out fsys terms).2 = false
      ∧ attemptsOf (downloadAllTraceFull out fsys terms).1 = plannedAttempts fsys terms
      ∧ failuresOf (downloadAllTraceFull out fsys terms).1
          = plannedFailures (fun t k => NetEnv.settle (out t k)) fsys terms)
  ∧ (∀ (out2 : Nat → NetEnv) (term : String) (i : Nat) (u : String) (us : List String)
        (msg : String), downloadAttempt (out2 i) = AttemptResult.crashed msg →
        downloadTermTraceFull out2 term i (u :: us)
          = ([DEv.attempt u (fileNameFor term i)], true))
  ∧ (∀ (out2 : String → Nat → NetEnv) (fsys2 : FileSys) (t : String) (ts : List String)
        (urls : List String), readCheckpoint fsys2 t = some urls →
        (downloadTermTraceFull (out2 t) t 0 urls).2 = true →
        downloadAllTraceFull out2 fsys2 (t :: ts)
          = ((downloadTermTraceFull (out2 t) t 0 urls).1, true)) := by
  have hb := downloadAllTraceFull_settle out fsys hset terms
  have hold := downloadAllTrace_attempts_failures (fun t k => NetEnv.settle (out t k)) fsys terms
  refine ⟨⟨?_, ?_, ?_⟩, ?_, ?_⟩
  · rw [hb]
  · rw [hb]
    exact hold.1
  · rw [hb]
    exact hold.2
  · intro out2 term i u us msg hcrash
    simp [downloadTermTraceFull, hcrash]
  · intro out2 fsys2 t ts urls hread hc
    simp [downloadAllTraceFull, hread, hc]

/-- Witness for C7 at a concrete transport-free environment: the checkpoint
`["u1","u2"]` for term `"x"` with the first attempt rejecting (status 404). -/
theorem download_isolation_logging_witness :
    (∀ t k, (outFirstFailsN t k).transportError = none)
  ∧ (((downloadAllTraceFull outFirstFailsN fsysX ["x"]).2 = false
      ∧ attemptsOf (downloadAllTraceFull outFirstFailsN fsysX ["x"]).1
          = plannedAttempts fsysX ["x"]
      ∧ failuresOf (downloadAllTraceFull outFirstFailsN fsysX ["x"]).1
          = plannedFailures (fun t k => NetEnv.settle (outFirstFailsN t k)) fsysX ["x"])
  ∧ (∀ (out2 : Nat → NetEnv) (term : String) (i : Nat) (u : String) (us : List String)
        (msg : String), downloadAttempt (out2 i) = AttemptResult.crashed msg →
        downloadTermTraceFull out2 term i (u :: us)
          = ([DEv.attempt u (fileNameFor term i)], true))
  ∧ (∀ (out2 : String → Nat → NetEnv) (fsys2 : FileSys) (t : String) (ts : List String)
        (urls : List String), readCheckpoint fsys2 t = some urls →
        (downloadTermTraceFull (out2 t) t 0 urls).2 = true →
        downloadAllTraceFull out2 fsys2 (t :: ts)
          = ((downloadTermTraceFull (out2 t) t 0 urls).1, true))) :=
  ⟨fun t k => by by_cases h : k = 0 <;> simp [outFirstFailsN, netOk, h],
   download_isolation_logging outFirstFailsN fsysX ["x"]
     (fun t k => by by_cases h : k = 0 <;> simp [outFirstFailsN, netOk, h])⟩

/- The dedup keeps an in-order selection of the input. -/
theorem jsSetDedup_sublist : ∀ (l : List String), List.Sublist (jsSetDedup l) l := by
  intro l
  induction l using jsSetDedup.induct with
  | case1 => simp [jsSetDedup]
  | case2 u us ih =>
    rw [jsSetDedup]
    exact (ih.trans (List.filter_sublist us)).cons₂ u

/- The dedup loses no element and invents none. -/
theorem mem_jsSetDedup : ∀ (l : List String) (x : String), x ∈ jsSetDedup l ↔ x ∈ l := by
  intro l
  induction l using jsSetDedup.induct with
  | case1 => simp [jsSetDedup]
  | case2 u us ih =>
    intro x
    rw [jsSetDedup]
    by_cases hx : x = u
    · simp [hx]
    · simp only [List.mem_cons, ih, List.mem_filter]
      simp [hx]

/- The dedup contains no duplicates. -/
theorem jsSetDedup_nodup : ∀ (l : List String), (jsSetDedup l).Nodup := by
  intro l
  induction l using jsSetDedup.induct with
  | case1 => simp [jsSetDedup]
  | case2 u us ih =>
    rw [jsSetDedup, List.nodup_cons]
    refine ⟨?_, ih⟩
    intro hmem
    rw [mem_jsSetDedup] at hmem
    have := (List.mem_filter.mp hmem).2
    simp at this

theorem indexOf_cons_self' (a : String) (l : List String) : (a :: l).indexOf a = 0 := by
  simp [List.indexOf_cons]

theorem indexOf_cons_ne' {a b : String} (l : List String) (h : b ≠ a) :
    (b :: l).indexOf a = l.indexOf a + 1 := by
  simp [List.indexOf_cons, h]

/- Filtering with a value-based predicate preserves the relative order of
   first occurrences. -/
theorem indexOf_filter_lt (p : String → Bool) :
    ∀ (l : List String) (a b : String), a ∈ l.filter p → b ∈ l.filter p →
      (l.filter p).indexOf a < (l.filter p).indexOf b → l.indexOf a < l.indexOf b := by
  intro l
  induction l with
  | nil => intro a b ha _ _; simp at ha
  | cons c cs ih =>
    intro a b ha hb hlt
    by_cases hpc : p c
    · rw [List.filter_cons_of_pos hpc] at ha hb hlt
      by_cases hac : a = c
      · subst hac
        have hbc : b ≠ a := by
          intro e
          subst e
          rw [indexOf_cons_self'] at hlt
          omega
        rw [indexOf_cons_self'] at hlt ⊢
        rw [indexOf_cons_ne' cs hbc.symm]
        omega
      · by_cases hbc : b = c
        · subst hbc
          rw [indexOf_cons_self'] at hlt
          omega
        · rw [indexOf_cons_ne' _ (fun e => hac e.symm)] at hlt
          rw [indexOf_cons_ne' _ (fun e => hbc e.symm)] at hlt
          rw [indexOf_cons_ne' _ (fun e => hac e.symm), indexOf_cons_ne' _ (fun e => hbc e.symm)]
          have haf : a ∈ cs.filter p := by
            rcases List.mem_cons.mp ha with h1 | h1
            · exact absurd h1 hac
            · exact h1
          have hbf : b ∈ cs.filter p := by
            rcases List.mem_cons.mp hb with h1 | h1
            · exact absurd h1 hbc
            · exact h1
          have := ih a b haf hbf (by omega)
          omega
    · rw [List.filter_cons_of_neg hpc] at ha hb hlt
      have hpa : p a = true := (List.mem_filter.mp ha).2
      have hpb : p b = true := (List.mem_filter.mp hb).2
      have hac : a ≠ c := fun e => by rw [e] at hpa; rw [hpa] at hpc; exact hpc rfl
      have hbc : b ≠ c := fun e => by rw [e] at hpb; rw [hpb] at hpc; exact hpc rfl
      rw [indexOf_cons_ne' _ (fun e => hac e.symm), indexOf_cons_ne' _ (fun e => hbc e.symm)]
      have := ih a b (List.mem_filter.mpr ⟨(List.mem_filter.mp ha).1, hpa⟩)
        (List.mem_filter.mpr ⟨(List.mem_filter.mp hb).1, hpb⟩) hlt
      omega

/- The dedup lists elements in strictly increasing order of their first
   occurrence in the input. -/
theorem jsSetDedup_pairwise_firstSeen :
    ∀ (l : List String),
      List.Pairwise (fun a b => l.indexOf a < l.indexOf b) (jsSetDedup l) := by
  intro l
  induction l using jsSetDedup.induct with
  | case1 => simp [jsSetDedup]
  | case2 u us ih =>
    rw [jsSetDedup, List.pairwise_cons]
    constructor
    · intro b hb
      have hbf : b ∈ us.filter (fun v => decide (v ≠ u)) := (mem_jsSetDedup _ b).mp hb
      have hbu : b ≠ u := by
        have := (List.mem_filter.mp hbf).2
        simpa using this
      rw [indexOf_cons_self', indexOf_cons_ne' us (fun e => hbu e.symm)]
      omega
    · refine List.Pairwise.imp_of_mem ?_ ih
      intro a b ha hb hlt
      have haf : a ∈ us.filter (fun v => decide (v ≠ u)) := (mem_jsSetDedup _ a).mp ha
      have hbf : b ∈ us.filter (fun v => decide (v ≠ u)) := (mem_jsSetDedup _ b).mp hb
      have hau : a ≠ u := by
        have := (List.mem_filter.mp haf).2
        simpa using this
      have hbu : b ≠ u := by
        have := (List.mem_filter.mp hbf).2
        simpa using this
      have hlt' := indexOf_filter_lt _ us a b haf hbf hlt
      rw [indexOf_cons_ne' us (fun e => hau e.symm), indexOf_cons_ne' us (fun e => hbu e.symm)]
      omega

/-- Claim C3: for every sequence of observed response URLs each matching the
configured gallery endpoint, the URL sequence persisted to the query's
checkpoint (`[...new Set(networkRequests)]`, src/index.ts:144-147) contains
no duplicate entries and lists URLs in first-seen order: the snapshot is the
dedup of the event sequence, has no duplicates, is an in-order selection of
the events containing exactly the observed URLs, lists them in strictly
increasing order of first occurrence, and on events `["a","b","a","c"]`
(with the empty, all-matching filter) it is `["a","b","c"]`. -/
theorem snapshot_nodup_firstSeen (pre : String) (events : List String)
    (hm : ∀ u ∈ events, pre.data.isPrefixOf u.data = true) :
    capturedSnapshot pre events = jsSetDedup events
  ∧ (capturedSnapshot pre events).Nodup
  ∧ List.Sublist (capturedSnapshot pre events) events
  ∧ (∀ u, u ∈ capturedSnapshot pre events ↔ u ∈ events)
  ∧ List.Pairwise (fun a b => events.indexOf a < events.indexOf b)
      (capturedSnapshot pre events)
  ∧ capturedSnapshot "" ["a", "b", "a", "c"] = ["a", "b", "c"] := by
  have hfe : capturedRequests pre events = events := by
    rw [capturedRequests]
    exact List.filter_eq_self.mpr hm
  have h1 : capturedSnapshot pre events = jsSetDedup events := by
    rw [capturedSnapshot, hfe]
  refine ⟨h1, ?_, ?_, ?_, ?_, ?_⟩
  · rw [h1]; exact jsSetDedup_nodup events
  · rw [h1]; exact jsSetDedup_sublist events
  · intro u; rw [h1]; exact mem_jsSetDedup events u
  · rw [h1]; exact jsSetDedup_pairwise_firstSeen events
  · show jsSetDedup (capturedRequests "" ["a", "b", "a", "c"]) = ["a", "b", "c"]
    have : capturedRequests "" ["a", "b", "a", "c"] = ["a", "b", "a", "c"] := by
      rw [capturedRequests]
      refine List.filter_eq_self.mpr ?_
      intro u _
      simp [List.isPrefixOf]
    rw [this]
    simp [jsSetDedup]

/-- Witness for C3: the scenario events `["a","b","a","c"]` against the
all-matching empty filter satisfy the hypothesis and yield the snapshot
`["a","b","c"]`. -/
theorem snapshot_nodup_firstSeen_witness :
    (∀ u ∈ ["a", "b", "a", "c"], "".data.isPrefixOf u.data = true)
  ∧ capturedSnapshot "" ["a", "b", "a", "c"] = ["a", "b", "c"] := by
  have h := snapshot_nodup_firstSeen "" ["a", "b", "a", "c"]
    (by intro u _; simp [List.isPrefixOf])
  exact ⟨by intro u _; simp [List.isPrefixOf], h.2.2.2.2.2⟩

/- Absorbing one equal element into the replicate padding. -/
theorem replicate_pad (a p : Nat) (xs : List Nat) :
    List.replicate a p ++ p :: xs = List.replicate (a + 1) p ++ xs := by
  rw [List.replicate_succ', List.append_assoc]
  rfl

/- Indexing a replicate within bounds. -/
theorem get?_replicate_of_lt {α : Type} (u : α) :
    ∀ (n i : Nat), i < n → (List.replicate n u).get? i = some u := by
  intro n
  induction n with
  | zero => intro i h; omega
  | succ n ih =>
    intro i h
    cases i with
    | zero => simp [List.replicate_succ]
    | succ i => simpa [List.replicate_succ] using ih i (by omega)

/- A constant list contains an n-long constant segment iff it is at least
   n long. -/
theorem exists_seg_replicate_iff (k p n : Nat) :
    (∃ l u r, List.replicate k p = l ++ (List.replicate n u ++ r)) ↔ n ≤ k := by
  constructor
  · rintro ⟨l, u, r, hsplit⟩
    have := congrArg List.length hsplit
    simp at this
    omega
  · intro hk
    refine ⟨[], p, List.replicate (k - n) p, ?_⟩
    rw [List.nil_append, List.append_replicate_replicate]
    congr 1
    omega

/- A constant segment longer than the constant padding of a padded list must
   lie past the padding, provided the first element after the padding breaks
   the padding value. -/
theorem replicate_seg_shift (n m : Nat) (u p h : Nat) (t l r : List Nat)
    (hne : h ≠ p) (hmn : m < n)
    (heq : l ++ (List.replicate n u ++ r) = List.replicate m p ++ h :: t) :
    ∃ l2 r2, h :: t = l2 ++ (List.replicate n u ++ r2) := by
  by_cases hml : m ≤ l.length
  · refine ⟨l.drop m, r, ?_⟩
    have hd := congrArg (List.drop m) heq
    rw [List.drop_append_of_le_length hml] at hd
    rw [List.drop_append_of_le_length (by simp)] at hd
    have hz : (List.replicate m p).drop m = [] := by simp
    rw [hz, List.nil_append] at hd
    exact hd.symm
  · exfalso
    push_neg at hml
    have hup : u = p := by
      have h1 := congrArg (fun x => List.get? x l.length) heq
      simp only at h1
      rw [List.get?_append_right (Nat.le_refl _), Nat.sub_self] at h1
      rw [List.get?_append (by simp only [List.length_replicate]; omega)] at h1
      rw [get?_replicate_of_lt u n 0 (by omega)] at h1
      rw [List.get?_append (by simp only [List.length_replicate]; omega)] at h1
      rw [get?_replicate_of_lt p m l.length (by omega)] at h1
      exact Option.some.inj h1
    have huh : u = h := by
      have h2 := congrArg (fun x => List.get? x m) heq
      simp only at h2
      rw [List.get?_append_right (by omega)] at h2
      rw [List.get?_append (by simp only [List.length_replicate]; omega)] at h2
      rw [get?_replicate_of_lt u n (m - l.length) (by omega)] at h2
      rw [List.get?_append_right (by simp only [List.length_replicate]; exact Nat.le_refl _)] at h2
      simp only [List.length_replicate, Nat.sub_self] at h2
      simp at h2
      exact h2
    exact hne (by rw [← huh, hup])

/- The code loop and the spec detector run in lockstep from any in-bounds
   state. -/
theorem loadLoop_conv_aux (hs : List Nat) :
    ∀ (prev a : Nat), a < maxLoadAttempts →
      (((loadLoop maxLoadAttempts prev a (hs.map CycleObs.height)).1 = LoopExit.stalled
          ↔ (convergenceRun maxLoadAttempts prev a hs).1 = true)
        ∧ (loadLoop maxLoadAttempts prev a (hs.map CycleObs.height)).2.1
            = (convergenceRun maxLoadAttempts prev a hs).2.1
        ∧ (loadLoop maxLoadAttempts prev a (hs.map CycleObs.height)).2.2.1
            = (convergenceRun maxLoadAttempts prev a hs).2.2.1
        ∧ (loadLoop maxLoadAttempts prev a (hs.map CycleObs.height)).2.2.2
            = (convergenceRun maxLoadAttempts prev a hs).2.2.2.map CycleObs.height) := by
  induction hs with
  | nil =>
    intro prev a ha
    have hna : ¬ maxLoadAttempts ≤ a := by omega
    simp [loadLoop, convergenceRun, hna]
  | cons h t ih =>
    intro prev a ha
    have hna : ¬ maxLoadAttempts ≤ a := by omega
    by_cases he : h = prev
    · have hcode : loadLoop maxLoadAttempts prev a ((h :: t).map CycleObs.height)
          = loadLoop maxLoadAttempts prev (a + 1) (t.map CycleObs.height) := by
        simp [loadLoop, hna, he]
      by_cases hstop : maxLoadAttempts ≤ a + 1
      · have hconv : convergenceRun maxLoadAttempts prev a (h :: t) = (true, prev, a + 1, t) := by
          simp [convergenceRun, convergenceUpdate, he, hstop]
        rw [hcode, hconv, loadLoop_stop maxLoadAttempts prev (a + 1) (t.map CycleObs.height) hstop]
        simp
      · have hconv : convergenceRun maxLoadAttempts prev a (h :: t)
            = convergenceRun maxLoadAttempts prev (a + 1) t := by
          simp [convergenceRun, convergenceUpdate, he, hstop]
        rw [hcode, hconv]
        exact ih prev (a + 1) (by omega)
    · have hcode : loadLoop maxLoadAttempts prev a ((h :: t).map CycleObs.height)
          = loadLoop maxLoadAttempts h 0 (t.map CycleObs.height) := by
        simp [loadLoop, hna, he]
      have hconv : convergenceRun maxLoadAttempts prev a (h :: t)
          = convergenceRun maxLoadAttempts h 0 t := by
        simp [convergenceRun, convergenceUpdate, he]
      rw [hcode, hconv]
      exact ih h 0 (by decide)

/- Stall-exit characterisation: from state (prev, a), with the unconsumed
   stall budget written as padding, the loop exits `stalled` iff the padded
   stream contains 11 consecutive equal values. -/
theorem loadLoop_stall_char (hs : List Nat) :
    ∀ (prev a : Nat), a ≤ maxLoadAttempts →
      ((loadLoop maxLoadAttempts prev a (hs.map CycleObs.height)).1 = LoopExit.stalled
        ↔ ∃ l u r, List.replicate a prev ++ prev :: hs
            = l ++ (List.replicate (maxLoadAttempts + 1) u ++ r)) := by
  induction hs with
  | nil =>
    intro prev a ha
    have hpad : List.replicate a prev ++ prev :: ([] : List Nat)
        = List.replicate (a + 1) prev := (List.replicate_succ' a prev).symm
    rw [hpad, exists_seg_replicate_iff (a + 1) prev (maxLoadAttempts + 1)]
    by_cases hstop : maxLoadAttempts ≤ a
    · simp [loadLoop, hstop]
    · simp [loadLoop, hstop]
  | cons h t ih =>
    intro prev a ha
    by_cases hstop : maxLoadAttempts ≤ a
    · have ha' : a = maxLoadAttempts := by omega
      subst ha'
      rw [loadLoop_stop maxLoadAttempts prev maxLoadAttempts ((h :: t).map CycleObs.height)
        hstop]
      constructor
      · intro _
        refine ⟨[], prev, h :: t, ?_⟩
        rw [List.nil_append, replicate_pad]
      · intro _
        rfl
    · have hna : ¬ maxLoadAttempts ≤ a := hstop
      by_cases he : h = prev
      · have hcode : loadLoop maxLoadAttempts prev a ((h :: t).map CycleObs.height)
            = loadLoop maxLoadAttempts prev (a + 1) (t.map CycleObs.height) := by
          simp [loadLoop, hna, he]
        have hpad : List.replicate a prev ++ prev :: h :: t
            = List.replicate (a + 1) prev ++ prev :: t := by
          subst he
          rw [replicate_pad]
        rw [hcode, hpad]
        exact ih prev (a + 1) (by omega)
      · have hcode : loadLoop maxLoadAttempts prev a ((h :: t).map CycleObs.height)
            = loadLoop maxLoadAttempts h 0 (t.map CycleObs.height) := by
          simp [loadLoop, hna, he]
        rw [hcode]
        have hsmall := ih h 0 (by omega)
        rw [List.replicate_zero, List.nil_append] at hsmall
        rw [hsmall]
        constructor
        · rintro ⟨l2, u, r2, hsplit⟩
          refine ⟨List.replicate (a + 1) prev ++ l2, u, r2, ?_⟩
          rw [replicate_pad, hsplit, List.append_assoc]
        · rintro ⟨l, u, r, hsplit⟩
          rw [replicate_pad] at hsplit
          obtain ⟨l2, r2, h2⟩ := replicate_seg_shift (maxLoadAttempts + 1) (a + 1) u prev h
            t l r he (by omega) hsplit.symm
          exact ⟨l2, u, r2, h2⟩

/-- Claim C1: for every sequence of feed-height measurements fed to the load
loop, the loop stops due to stalling exactly when `maxStallCount` (10)
consecutive readings equal to the recorded height occur, and any differing
reading resets the stall counter to 0 and records the new height
(src/index.ts:129-136).  Formally: (1) the code's loop refines the spec's
ConvergenceDetector — same stop verdict, same final recorded height and stall
count, same unconsumed measurements — where the detector by definition counts
consecutive equal readings, resets and re-records on any difference, and
STOPs as soon as the count reaches 10; and (2) the loop exits `stalled` iff
the height stream prefixed with the initial recorded height 0 contains
somewhere 11 consecutive equal values, i.e. a recorded height followed by 10
readings equal to it. -/
theorem loadLoop_convergence_spec (hs : List Nat) :
    (((loadLoop maxLoadAttempts 0 0 (hs.map CycleObs.height)).1 = LoopExit.stalled
        ↔ (convergenceRun maxLoadAttempts 0 0 hs).1 = true)
      ∧ (loadLoop maxLoadAttempts 0 0 (hs.map CycleObs.height)).2.1
          = (convergenceRun maxLoadAttempts 0 0 hs).2.1
      ∧ (loadLoop maxLoadAttempts 0 0 (hs.map CycleObs.height)).2.2.1
          = (convergenceRun maxLoadAttempts 0 0 hs).2.2.1
      ∧ (loadLoop maxLoadAttempts 0 0 (hs.map CycleObs.height)).2.2.2
          = (convergenceRun maxLoadAttempts 0 0 hs).2.2.2.map CycleObs.height)
  ∧ ((loadLoop maxLoadAttempts 0 0 (hs.map CycleObs.height)).1 = LoopExit.stalled
      ↔ ∃ l u r, 0 :: hs = l ++ (List.replicate (maxLoadAttempts + 1) u ++ r)) := by
  refine ⟨loadLoop_conv_aux hs 0 0 (by decide), ?_⟩
  have := loadLoop_stall_char hs 0 0 (by decide)
  simpa using this
